import Mathlib

/-!
Verification development for the spreadsheet-builder template engine.

This file gives a shallow embedding, in Lean 4, of the language front-end
and execution engine found in `src/engine/scope.rs`, `src/engine/ast.rs`,
`src/engine/parser.rs` and `src/engine/vm.rs`, and proves (or refutes)
the behavioural claims about it.

Modelling conventions:
* Rust `i64` / `i32` / `i16` values are modelled as `Int`, `u16` / `u32` /
  `usize` as `Nat`; none of the claims exercises wrap-around or overflow.
* Rust `f64` payloads are modelled as `Rat`.  Every claim about floats only
  inspects the constructor (`Value::Float` versus other constructors) or
  evaluates arithmetic that is exact in `f64` (such as `6.0 / 3.0`), so the
  rational model is faithful where it is used.  Division by zero and the
  textual rendering of floats are outside the claims and differ from IEEE
  behaviour.
* Rust `&str` / `String` / `EcoString` identifiers and path strings are
  modelled as `List Char` (named `VarName` below), which makes the
  character-level scanning loops of the source directly expressible;
  `String` payloads of `Value::String` and error messages stay `String`.
* `IndexMap` is modelled as an association list whose `insert` replaces the
  value in place when the key exists and appends otherwise, exactly the
  observable behaviour of `IndexMap::insert`.
* `Arc` sharing is irrelevant to the pure semantics and is dropped.
-/

/-- Identifier/key/path strings of the engine (`&str` in the source). -/
abbrev VarName := List Char

/-- The single error type of the engine, `SpreadSheetError` in
`src/engine/diag.rs`: a carrier of a human-readable message. -/
structure SpreadSheetError where
  msg : String
deriving DecidableEq

/-- Model of `SpreadSheetResult<T>` from `src/engine/diag.rs`. -/
abbrev SpreadSheetResult (α : Type) := Except SpreadSheetError α

/-- The runtime value algebra, `Value` in `src/engine/scope.rs`:
`String(String)`, `Integer(i64)`, `Float(f64)`, `Boolean(bool)`,
`Array(Arc<Vec<Value>>)`, `Object(Arc<IndexMap<EcoString, Value>>)`. -/
inductive Value where
  | string  : String → Value
  | integer : Int → Value
  | float   : Rat → Value
  | boolean : Bool → Value
  | array   : List Value → Value
  | object  : List (VarName × Value) → Value

/-- The kind name of a `Value`, as it appears inside the source error
messages (lower-case constructor name). -/
def Value.kindName : Value → String
  | .string _  => "string"
  | .integer _ => "integer"
  | .float _   => "float"
  | .boolean _ => "boolean"
  | .array _   => "array"
  | .object _  => "object"

/-- Whether a `Value` is numeric (`Integer` or `Float`). -/
def Value.isNumeric : Value → Bool
  | .integer _ => true
  | .float _   => true
  | _          => false

/-- Whether a `Value` is an `Array`. -/
def Value.isArray : Value → Bool
  | .array _ => true
  | _        => false

/-- Model of `Value::add` from `src/engine/scope.rs` (lines 59-134), arm for arm,
with the exact source error messages. -/
def Value.add (lhs rhs : Value) : SpreadSheetResult Value :=
  match lhs with
  | .integer l =>
    match rhs with
    | .integer r => .ok (.integer (l + r))
    | .float r   => .ok (.float ((l : Rat) + r))
    | .string r  => .ok (.string (toString l ++ r))
    | .array r   => .ok (.integer (l + (r.length : Int)))
    | .object _  => .error ⟨"invalid operation: integer + object"⟩
    | .boolean _ => .error ⟨"invalid operation: integer + boolean"⟩
  | .float l =>
    match rhs with
    | .integer r => .ok (.float (l + (r : Rat)))
    | .float r   => .ok (.float (l + r))
    | .string r  => .ok (.string (toString l ++ r))
    | .array r   => .ok (.float (l + (r.length : Rat)))
    | .object _  => .error ⟨"invalid operation: float + object"⟩
    | .boolean _ => .error ⟨"invalid operation: float + boolean"⟩
  | .string l =>
    match rhs with
    | .integer r => .ok (.string (l ++ toString r))
    | .float r   => .ok (.string (l ++ toString r))
    | .string r  => .ok (.string (l ++ r))
    | .array _   => .error ⟨"invalid operation: string + array"⟩
    | .object _  => .error ⟨"invalid operation: string + object"⟩
    | .boolean _ => .error ⟨"invalid operation: string + boolean"⟩
  | .array l =>
    match rhs with
    | .integer r => .ok (.integer ((l.length : Int) + r))
    | .float r   => .ok (.float ((l.length : Rat) + r))
    | .array r   => .ok (.array (l ++ r))
    | .object _  => .error ⟨"invalid operation: array + object"⟩
    | .boolean _ => .error ⟨"invalid operation: array + boolean"⟩
    | .string _  => .error ⟨"invalid operation: array + string"⟩
  | .boolean _ => .error ⟨"invalid operation: boolean + _"⟩
  | .object _  => .error ⟨"invalid operation: object + _"⟩

/-- Model of `Value::sub` from `src/engine/scope.rs` (lines 136-185).  Note that the
source does define `Integer - Array` and `Float - Array` (numeric minus the
array length) while any `Array` on the left is an error. -/
def Value.sub (lhs rhs : Value) : SpreadSheetResult Value :=
  match lhs with
  | .integer l =>
    match rhs with
    | .integer r => .ok (.integer (l - r))
    | .float r   => .ok (.float ((l : Rat) - r))
    | .string _  => .error ⟨"invalid operation: integer - string"⟩
    | .array r   => .ok (.integer (l - (r.length : Int)))
    | .object _  => .error ⟨"invalid operation: integer - object"⟩
    | .boolean _ => .error ⟨"invalid operation: integer - boolean"⟩
  | .float l =>
    match rhs with
    | .integer r => .ok (.float (l - (r : Rat)))
    | .float r   => .ok (.float (l - r))
    | .string _  => .error ⟨"invalid operation: float - string"⟩
    | .array r   => .ok (.float (l - (r.length : Rat)))
    | .object _  => .error ⟨"invalid operation: float - object"⟩
    | .boolean _ => .error ⟨"invalid operation: float - boolean"⟩
  | .string _  => .error ⟨"invalid operation: string - _"⟩
  | .boolean _ => .error ⟨"invalid operation: boolean - _"⟩
  | .object _  => .error ⟨"invalid operation: object - _"⟩
  | .array _   => .error ⟨"invalid operation: array - _"⟩

/-- Model of `Value::neg` from `src/engine/scope.rs` (lines 187-202). -/
def Value.neg (v : Value) : SpreadSheetResult Value :=
  match v with
  | .integer i => .ok (.integer (-i))
  | .float f   => .ok (.float (-f))
  | .boolean b => .ok (.boolean (!b))
  | .string _  => .error ⟨"invalid operation: -string"⟩
  | .array _   => .error ⟨"invalid operation: -array"⟩
  | .object _  => .error ⟨"invalid operation: -object"⟩

/-- Model of `Value::div` from `src/engine/scope.rs` (lines 204-251); every defined
arm produces a `Float`. -/
def Value.div (lhs rhs : Value) : SpreadSheetResult Value :=
  match lhs with
  | .integer l =>
    match rhs with
    | .integer r => .ok (.float ((l : Rat) / (r : Rat)))
    | .float r   => .ok (.float ((l : Rat) / r))
    | .string _  => .error ⟨"invalid operation: integer / string"⟩
    | .boolean _ => .error ⟨"invalid operation: integer / boolean"⟩
    | .array _   => .error ⟨"invalid operation: integer / array"⟩
    | .object _  => .error ⟨"invalid operation: integer / object"⟩
  | .float l =>
    match rhs with
    | .integer r => .ok (.float (l / (r : Rat)))
    | .float r   => .ok (.float (l / r))
    | .string _  => .error ⟨"invalid operation: float / string"⟩
    | .boolean _ => .error ⟨"invalid operation: float / boolean"⟩
    | .array _   => .error ⟨"invalid operation: float / array"⟩
    | .object _  => .error ⟨"invalid operation: float / object"⟩
  | .string _  => .error ⟨"invalid operation: string / _"⟩
  | .boolean _ => .error ⟨"invalid operation: boolean / _"⟩
  | .array _   => .error ⟨"invalid operation: array / _"⟩
  | .object _  => .error ⟨"invalid operation: object / _"⟩

/-- Model of `Value::mul` from `src/engine/scope.rs` (lines 253-300).  The catch-all
arms for `String` / `Boolean` / `Array` / `Object` on the left reproduce the
source text verbatim, including its `/` operator token (a copy-paste of the
`div` messages in the source). -/
def Value.mul (lhs rhs : Value) : SpreadSheetResult Value :=
  match lhs with
  | .integer l =>
    match rhs with
    | .integer r => .ok (.integer (l * r))
    | .float r   => .ok (.float ((l : Rat) * r))
    | .string _  => .error ⟨"invalid operation: integer * string"⟩
    | .boolean _ => .error ⟨"invalid operation: integer * boolean"⟩
    | .array _   => .error ⟨"invalid operation: integer * array"⟩
    | .object _  => .error ⟨"invalid operation: integer * object"⟩
  | .float l =>
    match rhs with
    | .integer r => .ok (.float (l * (r : Rat)))
    | .float r   => .ok (.float (l * r))
    | .string _  => .error ⟨"invalid operation: float * string"⟩
    | .boolean _ => .error ⟨"invalid operation: float * boolean"⟩
    | .array _   => .error ⟨"invalid operation: float * array"⟩
    | .object _  => .error ⟨"invalid operation: float * object"⟩
  | .string _  => .error ⟨"invalid operation: string / _"⟩
  | .boolean _ => .error ⟨"invalid operation: boolean / _"⟩
  | .array _   => .error ⟨"invalid operation: array / _"⟩
  | .object _  => .error ⟨"invalid operation: object / _"⟩

/-! ## Numeric literal parsing (Rust `str::parse`)

The engine calls Rust `str::parse` on sub-strings in two places: array
indices inside `Value::resolve` (`usize`) and the structural numeric fields
of the parser (`u16`, `u32`, `i16`, `i32`, `f64`).  The functions below
model `FromStr` for those types: an optional sign (`+` only for unsigned
types), at least one ASCII digit, nothing else, and a range check standing
for the checked accumulation of the source. -/

/-- Numeric value of a digit string (assumes all characters are digits). -/
def digitsVal (s : List Char) : Nat :=
  s.foldl (fun acc c => acc * 10 + (c.toNat - '0'.toNat)) 0

/-- Rust `str::parse::<uN>()`: optional leading `+`, then one or more ASCII
digits, value at most `maxV` (checked accumulation). -/
def rustParseNat (maxV : Nat) (s : List Char) : Option Nat :=
  let body := match s with
    | '+' :: t => t
    | _ => s
  if body ≠ [] ∧ body.all (fun c => c.isDigit) then
    if digitsVal body ≤ maxV then some (digitsVal body) else none
  else none

/-- Rust `str::parse::<iN>()`: optional leading `+` or `-`, then one or
more ASCII digits, value within `[minV, maxV]`. -/
def rustParseInt (minV maxV : Int) (s : List Char) : Option Int :=
  match s with
  | '-' :: t =>
    if t ≠ [] ∧ t.all (fun c => c.isDigit) then
      if minV ≤ -(digitsVal t : Int) ∧ -(digitsVal t : Int) ≤ maxV then
        some (-(digitsVal t : Int))
      else none
    else none
  | _ =>
    let body := match s with
      | '+' :: t => t
      | _ => s
    if body ≠ [] ∧ body.all (fun c => c.isDigit) then
      if (digitsVal body : Int) ≤ maxV then some ((digitsVal body : Int)) else none
    else none

/-- Maximum of Rust `usize` (64-bit). -/
def usizeMax : Nat := 2 ^ 64 - 1

/-! ## Path splitting and dotted-path resolution (`src/engine/scope.rs`) -/

/-- One step of `PathSplitter::next` (scope.rs lines 453-479), reformulated
statelessly over the remaining characters: the source keeps a `pos` cursor
into the path; here the state is the un-consumed suffix.  The source scans
from `pos` to the next `.` (or the end); if that span is empty it returns
`None` (leaving `pos` in place, so every later call also returns `None`),
otherwise it returns the span and advances `pos` past the single following
dot when there is one. -/
def splitNext (path : List Char) : Option (List Char × List Char) :=
  let seg := path.takeWhile (fun c => c ≠ '.')
  if seg = [] then none
  else some (seg, (path.drop seg.length).tail)

/-- Model of `Value::resolve` (scope.rs lines 41-57): descend through `Object` keys
and numeric `Array` indices along the remaining path; an exhausted path (or
an empty segment, where `PathSplitter::next` yields `None`) returns the
current value. -/
def Value.resolve (v : Value) (path : List Char) : Option Value :=
  match h : splitNext path with
  | none => some v
  | some (seg, rest) =>
    match v with
    | .object map =>
      match map.lookup seg with
      | some w => w.resolve rest
      | none => none
    | .array arr =>
      match rustParseNat usizeMax seg with
      | some idx =>
        match arr[idx]? with
        | some w => w.resolve rest
        | none => none
      | none => none
    | _ => none
termination_by path.length
decreasing_by
  all_goals
    simp only [splitNext] at h
    split at h
    · exact absurd h (by simp)
    · next hne =>
      simp only [Option.some.injEq, Prod.mk.injEq] at h
      obtain ⟨hseg, hrest⟩ := h
      have h1 : 1 ≤ (path.takeWhile (fun c => c ≠ '.')).length := by
        cases hp : path.takeWhile (fun c => c ≠ '.') with
        | nil => exact absurd hp hne
        | cons a t => simp
      have h2 : (path.takeWhile (fun c => c ≠ '.')).length ≤ path.length :=
        (List.takeWhile_prefix _).length_le
      have h3 : (path.drop (path.takeWhile (fun c => c ≠ '.')).length).tail.length
          ≤ (path.drop (path.takeWhile (fun c => c ≠ '.')).length).length := by
        cases path.drop (path.takeWhile (fun c => c ≠ '.')).length <;> simp
      subst hrest
      simp only [List.length_drop] at h3 ⊢
      omega

/-! ## Scopes (`src/engine/scope.rs`, lines 303-446) -/

/-- One lexical scope: `Scope` wraps an `IndexMap<EcoString, Slot>`; the
`Slot` indirection is a trivial wrapper around the stored `Value` and is
dropped.  Modelled as an association list with unique keys maintained by
`define`. -/
abbrev Scope := List (VarName × Value)

/-- Model of `Scope::get`: first (only) binding of the name, if any. -/
def Scope.get (sc : Scope) (var : VarName) : Option Value :=
  match sc with
  | [] => none
  | (k, v) :: t => if k = var then some v else Scope.get t var

/-- Model of `Scope::define` (`IndexMap::insert`): overwrite in place when the key
exists, append otherwise. -/
def Scope.define (sc : Scope) (name : VarName) (v : Value) : Scope :=
  match sc with
  | [] => [(name, v)]
  | (k, w) :: t => if k = name then (k, v) :: t else (k, w) :: Scope.define t name v

/-- The scope stack `Scopes`: the active scope `top` plus the saved outer
scopes.  The source stores the saved scopes in a `Vec` pushed/popped at the
back; here the list head is the most recently pushed scope, so `enter` is
`cons` and lookup order `top`, then `scopes` front to back, matches the
iteration order `once(&self.top).chain(self.scopes.iter().rev())` of the source. -/
structure Scopes where
  top : Scope
  scopes : List Scope

/-- Model of `Scopes::new`. -/
def Scopes.new : Scopes := ⟨[], []⟩

/-- Model of `Scopes::enter`: push `mem::take(&mut self.top)` (leaving a fresh empty
top scope). -/
def Scopes.enter (s : Scopes) : Scopes := ⟨[], s.top :: s.scopes⟩

/-- Model of `Scopes::exit`: pop the most recently pushed scope back into `top`.
The source panics (`expect("no pushed scope")`) when the stack is empty;
that branch is modelled as the identity and is unreachable in the balanced
uses proved below. -/
def Scopes.exit (s : Scopes) : Scopes :=
  match s.scopes with
  | [] => s
  | sc :: rest => ⟨sc, rest⟩

/-- Helper for `Scopes::get`: first scope in the list that binds the
variable. -/
def scopesFind (l : List Scope) (var : VarName) : Option Value :=
  match l with
  | [] => none
  | sc :: rest =>
    match Scope.get sc var with
    | some v => some v
    | none => scopesFind rest var

/-- Model of `Scopes::get` (scope.rs lines 337-342): search the top scope, then the
outer scopes from most to least recently pushed; unknown names give the
`unknown variable` error built by `unknown_variable`. -/
def Scopes.get (s : Scopes) (var : VarName) : SpreadSheetResult Value :=
  match scopesFind (s.top :: s.scopes) var with
  | some v => .ok v
  | none => .error ⟨"unknown variable: " ++ String.mk var⟩

/-- Mutate the active scope (`self.scopes.top.define(..)` as used by the
VM). -/
def Scopes.defineTop (s : Scopes) (name : VarName) (v : Value) : Scopes :=
  ⟨Scope.define s.top name v, s.scopes⟩

/-- Model of `Scopes::resolve_identifier` (scope.rs lines 352-363): strip the
leading sigil byte (`&id[1..]`), split the first path segment, look it up
as a variable, then walk the remaining path through the value. -/
def Scopes.resolve_identifier (s : Scopes) (id : VarName) : Option Value :=
  match splitNext (id.drop 1) with
  | some (name, rest) =>
    match s.get name with
    | .ok v => v.resolve rest
    | .error _ => none
  | none => none

/-! ## Syntax tree (`src/engine/ast.rs`) -/

/-- Model of `Expression`: a literal value or a (sigil-carrying) identifier. -/
inductive Expression where
  | value : Value → Expression
  | identifier : VarName → Expression

/-- Model of `Operator`. -/
inductive Operator where
  | add
  | sub
  | mul
  | div
  | neg
deriving DecidableEq

/-- Model of `Expr`: expression trees.  `binary` models `Expr::Infix` and `unary`
models `Expr::Prefix` (those constructor names are avoided for syntactic
reasons only). -/
inductive Expr where
  | primary : Expression → Expr
  | binary : Operator → Expr → Expr → Expr
  | unary : Operator → Expr → Expr

/-- Model of `Scopes::resolve` (scope.rs lines 365-370): literals resolve to
themselves, identifiers through `resolve_identifier` (the `cloned()` of the
source is the identity here). -/
def Scopes.resolve (s : Scopes) (e : Expression) : Option Value :=
  match e with
  | .value v => some v
  | .identifier id => s.resolve_identifier id

/-- Model of `Modifier` of a format declaration. -/
structure Modifier where
  statement : VarName
  expression : Expr

/-- Model of `Format` declaration. -/
structure Format where
  identifier : VarName
  modifiers : List Modifier

/-- Model of `Sheet` declaration. -/
structure Sheet where
  name : String

/-- Model of `Anchor` declaration. -/
structure Anchor where
  identifier : VarName

/-- Model of `Move` (cursor move); `row : i32`, `col : i16` in the source. -/
structure Move where
  anchor : Option VarName
  row : Int
  col : Int

/-- Model of `CellType`. -/
inductive CellType where
  | num
  | str
  | date
  | image
deriving DecidableEq

/-- Model of `Cell`; `colspan` / `rowspan` are `u16` in the source. -/
structure Cell where
  cell_type : CellType
  value : Expr
  format : Option VarName
  colspan : Nat
  rowspan : Nat
  image_mode : Option VarName

/-- Model of `Row`. -/
structure Row where
  cells : List Cell

/-- Model of `Column` sizing directive; `start` / `end` are `u16`, `width` is `f64`.
The source field `end` is called `stop` here (`end` is reserved). -/
structure Column where
  start : Nat
  stop : Nat
  unit : VarName
  width : Rat

/-- Model of `RowSpec` sizing directive; `start` is `u32`, `height` is `f64`. -/
structure RowSpec where
  start : Nat
  unit : VarName
  height : Rat

/-- Model of `Element`: one template construct.  the `ForLoop` fields are inlined into
the constructor (`variable`, `expression`, body `elements`) because the
body recursively contains elements. -/
inductive Element where
  | format : Format → Element
  | sheet : Sheet → Element
  | anchor : Anchor → Element
  | row : Row → Element
  | mover : Move → Element
  | forLoop : VarName → Expression → List Element → Element
  | cr : Element
  | autofit : Element
  | column : Column → Element
  | rowSpec : RowSpec → Element

/-! ## String literal decoding (`decode_string`, parser.rs lines 167-205) -/

/-- Strip one surrounding pair of double quotes.  The source checks byte
length and the first and last byte; since `"` is ASCII and UTF-8
continuation bytes can never equal it, the byte-level check coincides with
this character-level one. -/
def stripQuotes (s : List Char) : List Char :=
  if 2 ≤ s.length ∧ s.head? = some '"' ∧ s.getLast? = some '"' then
    (s.drop 1).dropLast
  else s

/-- The escape map applied when the previous character was a backslash. -/
def escMap (c : Char) : Char :=
  match c with
  | 'n' => '\n'
  | 'r' => '\r'
  | 't' => '\t'
  | _ => c

/-- The character loop of `decode_string`: `quoted` is the flag of the source
"the previous character was a backslash".  With the flag set every
character is emitted through `escMap` (`\\` and `"` are fixed points of
`escMap`, exactly as in the source arms) and the flag clears; with the flag
clear a backslash only sets the flag and anything else is copied. -/
def decodeScan (quoted : Bool) (s : List Char) : List Char :=
  match s with
  | [] => []
  | c :: t =>
    if quoted then escMap c :: decodeScan false t
    else if c = '\\' then decodeScan true t
    else c :: decodeScan false t

/-- Model of `decode_string` (parser.rs lines 167-205). -/
def decode_string (s : String) : String :=
  ⟨decodeScan false (stripQuotes s.data)⟩

/-- Modelled from the spec: the description in the claim of `decode_string` as a
single left-to-right `foldl` pass carrying the backslash flag and the
output buffer.  Used as the spec-side definition the source function is
proved to refine. -/
def decodeSpecStep (st : Bool × List Char) (c : Char) : Bool × List Char :=
  if st.1 then
    (false, st.2 ++ [escMap c])
  else if c = '\\' then
    (true, st.2)
  else
    (false, st.2 ++ [c])

/-- Modelled from the spec: quote stripping followed by the flag-carrying
left fold. -/
def decode_string_spec (s : String) : String :=
  ⟨((stripQuotes s.data).foldl decodeSpecStep (false, [])).2⟩

/-! ## Structural numeric fields of the parser
(`parse_mover`, `parse_column`, `parse_rowspec`, `parse_cell`,
parser.rs lines 226-373)

The grammar side of `pest` is not part of the sources of this repository; the
functions below take the already-classified token streams (one inductive
constructor per `Rule` the source matches on, carrying the token text
`pair.as_str()`, or the already-parsed payload for expression tokens) and
reproduce the field-assignment loops of the source exactly. -/

/-- Rust `str::parse::<f64>()` restricted to finite decimal literals,
modelled over `Rat`: optional sign, integer digits and/or a fractional
part, and an optional integral exponent.  The `inf` / `infinity` / `nan`
spellings Rust also accepts have no rational counterpart and are outside
the model (no claim exercises them). -/
def rustParseF64Mantissa (s : List Char) : Option Rat :=
  let ip := s.takeWhile (fun c => c ≠ '.')
  if ip = s then
    if s ≠ [] ∧ s.all (fun c => c.isDigit) then some ((digitsVal s : Int) : Rat) else none
  else
    let fp := (s.drop ip.length).tail
    if (ip ≠ [] ∨ fp ≠ []) ∧ ip.all (fun c => c.isDigit) ∧ fp.all (fun c => c.isDigit) then
      some (((digitsVal ip : Int) : Rat) + ((digitsVal fp : Int) : Rat) / (10 : Rat) ^ fp.length)
    else none

/-- Exponent part of a float literal: optional sign, one or more digits. -/
def rustParseF64Exp (s : List Char) : Option Int :=
  match s with
  | '-' :: t =>
    if t ≠ [] ∧ t.all (fun c => c.isDigit) then some (-(digitsVal t : Int)) else none
  | '+' :: t =>
    if t ≠ [] ∧ t.all (fun c => c.isDigit) then some ((digitsVal t : Int)) else none
  | t =>
    if t ≠ [] ∧ t.all (fun c => c.isDigit) then some ((digitsVal t : Int)) else none

/-- Rust `str::parse::<f64>()` on finite decimal literals (see
`rustParseF64Mantissa`). -/
def rustParseF64 (s : List Char) : Option Rat :=
  let (sign, body) :=
    match s with
    | '-' :: t => ((-1 : Rat), t)
    | '+' :: t => ((1 : Rat), t)
    | t => ((1 : Rat), t)
  let mant := body.takeWhile (fun c => c ≠ 'e' ∧ c ≠ 'E')
  if mant = body then
    (rustParseF64Mantissa body).map (fun m => sign * m)
  else
    match rustParseF64Mantissa mant, rustParseF64Exp ((body.drop mant.length).tail) with
    | some m, some e => some (sign * m * (10 : Rat) ^ e)
    | _, _ => none

/-- Tokens seen by `parse_mover` (parser.rs lines 226-245). -/
inductive MoverTok where
  | anchorId : VarName → MoverTok
  | moverX : VarName → MoverTok
  | moverY : VarName → MoverTok
  | otherTok : MoverTok

/-- Model of `parse_mover`: fold the token loop over the initial
`Move { anchor: None, row: 0, col: 0 }`; `mover_x` parses as `i32` and
`mover_y` as `i16`, both with `unwrap_or_default()` (that is, 0). -/
def parse_mover (toks : List MoverTok) : Move :=
  toks.foldl
    (fun m t =>
      match t with
      | .anchorId s => { m with anchor := some s }
      | .moverX s => { m with row := (rustParseInt (-(2 ^ 31)) (2 ^ 31 - 1) s).getD 0 }
      | .moverY s => { m with col := (rustParseInt (-(2 ^ 15)) (2 ^ 15 - 1) s).getD 0 }
      | .otherTok => m)
    ⟨none, 0, 0⟩

/-- Tokens seen by `parse_column` and `parse_rowspec`: `number` tokens,
the `width_unit` token, and anything else. -/
inductive SizingTok where
  | number : VarName → SizingTok
  | widthUnit : VarName → SizingTok
  | otherTok : SizingTok

/-- One step of the `parse_column` loop (parser.rs lines 247-279): the
`number_idx` counter assigns the first number to `start` (`u16`), the
second to `end` (`u16`) and the third to `width` (`f64`), each with
`unwrap_or_default()`. -/
def parseColumnStep (st : Column × Nat) (t : SizingTok) : Column × Nat :=
  match t with
  | .number s =>
    if st.2 = 0 then ({ st.1 with start := (rustParseNat (2 ^ 16 - 1) s).getD 0 }, 1)
    else if st.2 = 1 then ({ st.1 with stop := (rustParseNat (2 ^ 16 - 1) s).getD 0 }, 2)
    else if st.2 = 2 then ({ st.1 with width := (rustParseF64 s).getD 0 }, 3)
    else st
  | .widthUnit s => ({ st.1 with unit := s }, st.2)
  | .otherTok => st

/-- Model of `parse_column`. -/
def parse_column (toks : List SizingTok) : Column :=
  (toks.foldl parseColumnStep (⟨0, 0, [], 0⟩, 0)).1

/-- One step of the `parse_rowspec` loop (parser.rs lines 281-308): first
number to `start` (`u32`), second to `height` (`f64`). -/
def parseRowSpecStep (st : RowSpec × Nat) (t : SizingTok) : RowSpec × Nat :=
  match t with
  | .number s =>
    if st.2 = 0 then ({ st.1 with start := (rustParseNat (2 ^ 32 - 1) s).getD 0 }, 1)
    else if st.2 = 1 then ({ st.1 with height := (rustParseF64 s).getD 0 }, 2)
    else st
  | .widthUnit s => ({ st.1 with unit := s }, st.2)
  | .otherTok => st

/-- Model of `parse_rowspec`. -/
def parse_rowspec (toks : List SizingTok) : RowSpec :=
  (toks.foldl parseRowSpecStep (⟨0, [], 0⟩, 0)).1

/-- Tokens seen by `parse_cell` (parser.rs lines 310-373).  The `expression`
and `expr` rules are parsed by sub-parsers (`parse_expression` and the
pratt `parse_expr`) whose grammar lives outside the repository; their
already-built payloads ride on the token.  `colspan` / `rowspan` tokens
carry the texts of the `number` tokens found among their inner pairs. -/
inductive CellTok where
  | cellType : VarName → CellTok
  | formatId : VarName → CellTok
  | expressionTok : Expression → CellTok
  | exprTok : Expr → CellTok
  | imageMode : VarName → CellTok
  | colspan : List VarName → CellTok
  | rowspan : List VarName → CellTok
  | otherTok : CellTok

/-- Model of `parse_cell`: the initial cell has type `Str`, value
`Expr::Primary(Expression::Value(Value::Integer(0)))`, no format, spans 1
and no image mode; span numbers parse as `u16` with `unwrap_or(1)`. -/
def parse_cell (toks : List CellTok) : Cell :=
  toks.foldl
    (fun c t =>
      match t with
      | .cellType s =>
        { c with cell_type :=
            if s = "num".data then .num
            else if s = "str".data then .str
            else if s = "date".data then .date
            else if s = "img".data then .image
            else .str }
      | .formatId s => { c with format := some s }
      | .expressionTok e => { c with value := .primary e }
      | .exprTok e => { c with value := e }
      | .imageMode s => { c with image_mode := some s }
      | .colspan nums =>
        { c with colspan := nums.foldl (fun cur s => (rustParseNat (2 ^ 16 - 1) s).getD 1) c.colspan }
      | .rowspan nums =>
        { c with rowspan := nums.foldl (fun cur s => (rustParseNat (2 ^ 16 - 1) s).getD 1) c.rowspan }
      | .otherTok => c)
    ⟨.str, .primary (.value (.integer 0)), none, 1, 1, none⟩

/-! ## Virtual machine (`src/engine/vm.rs`) -/

/-- Model of `VM::resolve_expression` (vm.rs lines 68-84): literals pass through,
identifiers resolve through the scope stack or fail with the
`Unresolved identifier` error. -/
def resolveExpression (s : Scopes) (e : Expression) : SpreadSheetResult Value :=
  match e with
  | .value v => .ok v
  | .identifier id =>
    match s.resolve (.identifier id) with
    | some v => .ok v
    | none => .error ⟨"Unresolved identifier: " ++ String.mk id⟩

/-- Model of `VM::handle` (vm.rs lines 86-94): dispatch a binary operator to the
value algebra. -/
def handle (op : Operator) (lhs rhs : Value) : SpreadSheetResult Value :=
  match op with
  | .add => lhs.add rhs
  | .sub => lhs.sub rhs
  | .mul => lhs.mul rhs
  | .div => lhs.div rhs
  | _ => .error ⟨"Invalid infix operator"⟩

/-- Model of `VM::resolve_expr` (vm.rs lines 96-130), including the bare-identifier
shortcut paths: a left operand that is an identifier primary and resolves
is used directly; then the same check is made on the right; otherwise the
operand is recursively evaluated (errors propagate). -/
def resolveExpr (s : Scopes) (e : Expr) : SpreadSheetResult Value :=
  match e with
  | .binary op lhs rhs =>
    match lhs with
    | .primary (.identifier id) =>
      match s.resolve_identifier id with
      | some lv =>
        match rhs with
        | .primary (.identifier id2) =>
          match s.resolve_identifier id2 with
          | some rv => handle op lv rv
          | none =>
            match resolveExpr s rhs with
            | .ok rv => handle op lv rv
            | .error er => .error er
        | _ =>
          match resolveExpr s rhs with
          | .ok rv => handle op lv rv
          | .error er => .error er
      | none =>
        match resolveExpr s lhs with
        | .error er => .error er
        | .ok lv =>
          match rhs with
          | .primary (.identifier id2) =>
            match s.resolve_identifier id2 with
            | some rv => handle op lv rv
            | none =>
              match resolveExpr s rhs with
              | .ok rv => handle op lv rv
              | .error er => .error er
          | _ =>
            match resolveExpr s rhs with
            | .ok rv => handle op lv rv
            | .error er => .error er
    | _ =>
      match resolveExpr s lhs with
      | .error er => .error er
      | .ok lv =>
        match rhs with
        | .primary (.identifier id2) =>
          match s.resolve_identifier id2 with
          | some rv => handle op lv rv
          | none =>
            match resolveExpr s rhs with
            | .ok rv => handle op lv rv
            | .error er => .error er
        | _ =>
          match resolveExpr s rhs with
          | .ok rv => handle op lv rv
          | .error er => .error er
  | .unary op e1 =>
    match resolveExpr s e1 with
    | .error er => .error er
    | .ok v =>
      match op with
      | .neg => v.neg
      | _ => .error ⟨"Invalid prefix operator"⟩
  | .primary e1 => resolveExpression s e1

/-- Cell loop of `VM::resolve` (vm.rs lines 132-146): the value expression of each cell
expression is evaluated and replaced by a literal primary; the remaining
fields pass through. -/
def resolveCells (s : Scopes) (cells : List Cell) : SpreadSheetResult (List Cell) :=
  match cells with
  | [] => .ok []
  | c :: t =>
    match resolveExpr s c.value with
    | .error er => .error er
    | .ok v =>
      match resolveCells s t with
      | .error er => .error er
      | .ok t' => .ok ({ c with value := .primary (.value v) } :: t')

/-- Model of `VM::resolve` (rows). -/
def resolveRow (s : Scopes) (r : Row) : SpreadSheetResult Row :=
  match resolveCells s r.cells with
  | .error er => .error er
  | .ok cs => .ok ⟨cs⟩

/-- Modifier loop of `VM::resolve_format` (vm.rs lines 148-161). -/
def resolveModifiers (s : Scopes) (ms : List Modifier) : SpreadSheetResult (List Modifier) :=
  match ms with
  | [] => .ok []
  | m :: t =>
    match resolveExpr s m.expression with
    | .error er => .error er
    | .ok v =>
      match resolveModifiers s t with
      | .error er => .error er
      | .ok t' => .ok (⟨m.statement, .primary (.value v)⟩ :: t')

/-- Model of `VM::resolve_format`. -/
def resolveFormat (s : Scopes) (f : Format) : SpreadSheetResult Format :=
  match resolveModifiers s f.modifiers with
  | .error er => .error er
  | .ok ms => .ok ⟨f.identifier, ms⟩

/-- The per-iteration scope of `VM::for_loop` (vm.rs lines 58-60): enter a
fresh scope, bind `index` to the 0-based position, then bind the loop
variable (its leading sigil stripped) to the current element.  When the
stripped variable is itself `index`, the second `define` overwrites the
first. -/
def loopScope (s : Scopes) (lvar : VarName) (i : Nat) (v : Value) : Scopes :=
  ((s.enter.defineTop "index".data (.integer (i : Int))).defineTop (lvar.drop 1) v)

/-!
The consumer of the VM (`SheetProcessor::process`) is modelled as a trace
collector: `runElems` returns, along with the final scope stack, the list
of elements handed to `process`, in call order.  A consumer error only
truncates execution at the first failing element and cannot change which
elements are produced before it.
-/

mutual

/-- The element loop of `VM::run` (vm.rs lines 24-48): `Format` and `Row`
are resolved before being processed, `ForLoop` is executed by `loopIter`
and never processed itself, everything else passes through. -/
def runElems (s : Scopes) (els : List Element) : SpreadSheetResult (Scopes × List Element) :=
  match els with
  | [] => .ok (s, [])
  | e :: rest =>
    match runElem s e with
    | .error er => .error er
    | .ok (s1, out1) =>
      match runElems s1 rest with
      | .error er => .error er
      | .ok (s2, out2) => .ok (s2, out1 ++ out2)
termination_by (sizeOf els, 0)
decreasing_by
  all_goals simp_wf
  all_goals first
  | exact Prod.Lex.left _ _ (by omega)
  | exact Prod.Lex.right _ (by omega)
  | exact Prod.Lex.right _ (by simp only [List.length_cons]; omega)

/-- One element of the `VM::run` loop (the body of the `match item`). -/
def runElem (s : Scopes) (e : Element) : SpreadSheetResult (Scopes × List Element) :=
  match e with
  | .format f =>
    match resolveFormat s f with
    | .error er => .error er
    | .ok f' => .ok (s, [.format f'])
  | .row r =>
    match resolveRow s r with
    | .error er => .error er
    | .ok r' => .ok (s, [.row r'])
  | .forLoop lvar ex body =>
    match resolveExpression s ex with
    | .error er => .error er
    | .ok (.array arr) => loopIter s lvar body arr 0
    | .ok _ => .ok (s, [])
  | other => .ok (s, [other])
termination_by (sizeOf e, 0)
decreasing_by
  all_goals simp_wf
  all_goals first
  | exact Prod.Lex.left _ _ (by omega)
  | exact Prod.Lex.right _ (by omega)
  | exact Prod.Lex.right _ (by simp only [List.length_cons]; omega)

/-- The iteration loop of `VM::for_loop` (vm.rs lines 56-63): for each
array element, enter the iteration scope, run the body, exit the scope;
`i` is the running `enumerate` index. -/
def loopIter (s : Scopes) (lvar : VarName) (body : List Element)
    (arr : List Value) (i : Nat) : SpreadSheetResult (Scopes × List Element) :=
  match arr with
  | [] => .ok (s, [])
  | v :: vs =>
    match runElems (loopScope s lvar i v) body with
    | .error er => .error er
    | .ok (s2, out1) =>
      match loopIter s2.exit lvar body vs (i + 1) with
      | .error er => .error er
      | .ok (s3, out2) => .ok (s3, out1 ++ out2)
termination_by (sizeOf body, arr.length + 1)
decreasing_by
  all_goals simp_wf
  all_goals first
  | exact Prod.Lex.left _ _ (by omega)
  | exact Prod.Lex.right _ (by omega)
  | exact Prod.Lex.right _ (by simp only [List.length_cons]; omega)

end

/-- An expression is fully resolved when it is a literal primary
(`Expr::Primary(Expression::Value(..))`). -/
def isPrimaryValue : Expr → Bool
  | .primary (.value _) => true
  | _ => false

/-- An element is in the shape the consumer is promised: never a
`ForLoop`, and every expression-bearing field of `Format` and `Row`
elements is a literal primary. -/
def isResolved : Element → Bool
  | .forLoop _ _ _ => false
  | .format f => f.modifiers.all (fun m => isPrimaryValue m.expression)
  | .row r => r.cells.all (fun c => isPrimaryValue c.value)
  | _ => true

/-! ## Theorems -/

/-- Balanced `enter` / `exit` around a loop-iteration scope restores the
scope stack exactly. -/
theorem exit_loopScope (s : Scopes) (lvar : VarName) (i : Nat) (v : Value) :
    (loopScope s lvar i v).exit = s := rfl

/-- Resolved cell lists consist of literal primaries. -/
theorem resolveCells_resolved (s : Scopes) :
    ∀ (cells cs : List Cell), resolveCells s cells = .ok cs →
      ∀ c ∈ cs, isPrimaryValue c.value = true := by
  intro cells
  induction cells with
  | nil =>
    intro cs h
    simp only [resolveCells, Except.ok.injEq] at h
    subst h
    simp
  | cons c t ih =>
    intro cs h
    simp only [resolveCells] at h
    split at h
    · exact absurd h (by simp)
    · split at h
      · exact absurd h (by simp)
      · next v hv t' ht =>
        simp only [Except.ok.injEq] at h
        subst h
        intro c2 hc2
        rcases List.mem_cons.mp hc2 with h1 | h1
        · subst h1; simp [isPrimaryValue]
        · exact ih t' ht c2 h1

/-- Resolved modifier lists consist of literal primaries. -/
theorem resolveModifiers_resolved (s : Scopes) :
    ∀ (ms ms' : List Modifier), resolveModifiers s ms = .ok ms' →
      ∀ m ∈ ms', isPrimaryValue m.expression = true := by
  intro ms
  induction ms with
  | nil =>
    intro ms' h
    simp only [resolveModifiers, Except.ok.injEq] at h
    subst h
    simp
  | cons m t ih =>
    intro ms' h
    simp only [resolveModifiers] at h
    split at h
    · exact absurd h (by simp)
    · split at h
      · exact absurd h (by simp)
      · next v hv t' ht =>
        simp only [Except.ok.injEq] at h
        subst h
        intro m2 hm2
        rcases List.mem_cons.mp hm2 with h1 | h1
        · subst h1; simp [isPrimaryValue]
        · exact ih t' ht m2 h1

/-- A resolved format is in consumer shape. -/
theorem resolveFormat_resolved (s : Scopes) (f f' : Format)
    (h : resolveFormat s f = .ok f') : isResolved (.format f') = true := by
  simp only [resolveFormat] at h
  split at h
  · exact absurd h (by simp)
  · next ms hms =>
    simp only [Except.ok.injEq] at h
    subst h
    simp only [isResolved, List.all_eq_true]
    exact fun m hm => resolveModifiers_resolved s _ _ hms m hm

/-- A resolved row is in consumer shape. -/
theorem resolveRow_resolved (s : Scopes) (r r' : Row)
    (h : resolveRow s r = .ok r') : isResolved (.row r') = true := by
  simp only [resolveRow] at h
  split at h
  · exact absurd h (by simp)
  · next cs hcs =>
    simp only [Except.ok.injEq] at h
    subst h
    simp only [isResolved, List.all_eq_true]
    exact fun c hc => resolveCells_resolved s _ _ hcs c hc

/-- Joint soundness of the VM run: a successful `runElems` leaves the scope
stack exactly as it found it, and every element of the emitted trace is in
consumer shape (no `ForLoop`, all `Format` / `Row` expressions literal). -/
theorem run_sound :
    ∀ (s : Scopes) (els : List Element) (s' : Scopes) (out : List Element),
      runElems s els = .ok (s', out) → s' = s ∧ ∀ e ∈ out, isResolved e = true := by
  refine runElems.induct
    (fun s els => ∀ s' out, runElems s els = .ok (s', out) →
      s' = s ∧ ∀ e ∈ out, isResolved e = true)
    (fun s e => ∀ s' out, runElem s e = .ok (s', out) →
      s' = s ∧ ∀ e2 ∈ out, isResolved e2 = true)
    (fun s lvar body arr i => ∀ s' out, loopIter s lvar body arr i = .ok (s', out) →
      s' = s ∧ ∀ e2 ∈ out, isResolved e2 = true)
    ?_ ?_ ?_ ?_ ?_ ?_ ?_ ?_ ?_ ?_ ?_ ?_ ?_ ?_ ?_ ?_
  · -- runElems, empty list
    intro s s' out h
    simp only [runElems, Except.ok.injEq, Prod.mk.injEq] at h
    obtain ⟨h1, h2⟩ := h
    subst h1; subst h2
    exact ⟨rfl, by simp⟩
  · -- runElems, head element errors
    intro s e rest er h1 _ s' out h
    simp only [runElems, h1] at h
    exact absurd h (by simp)
  · -- runElems, head ok, tail errors
    intro s e rest s2 outA h1 er h2 _ _ s' out h
    simp only [runElems, h1, h2] at h
    exact absurd h (by simp)
  · -- runElems, head and tail ok
    intro s e rest s2 outA h1 s3 outB h2 ih2 ih1 s' out h
    simp only [runElems, h1, h2, Except.ok.injEq, Prod.mk.injEq] at h
    obtain ⟨h3, h4⟩ := h
    subst h3; subst h4
    obtain ⟨he, hb⟩ := ih2 s2 outA h1
    obtain ⟨ht, hc⟩ := ih1 s3 outB h2
    subst he; subst ht
    refine ⟨rfl, ?_⟩
    intro e2 he2
    rcases List.mem_append.mp he2 with hm | hm
    · exact hb e2 hm
    · exact hc e2 hm
  · -- runElem, format errors
    intro s f er h1 s' out h
    simp only [runElem, h1] at h
    exact absurd h (by simp)
  · -- runElem, format ok
    intro s f f' h1 s' out h
    simp only [runElem, h1, Except.ok.injEq, Prod.mk.injEq] at h
    obtain ⟨h2, h3⟩ := h
    subst h2; subst h3
    refine ⟨rfl, ?_⟩
    intro e2 he2
    rcases List.mem_singleton.mp he2 with rfl
    exact resolveFormat_resolved s f f' h1
  · -- runElem, row errors
    intro s r er h1 s' out h
    simp only [runElem, h1] at h
    exact absurd h (by simp)
  · -- runElem, row ok
    intro s r r' h1 s' out h
    simp only [runElem, h1, Except.ok.injEq, Prod.mk.injEq] at h
    obtain ⟨h2, h3⟩ := h
    subst h2; subst h3
    refine ⟨rfl, ?_⟩
    intro e2 he2
    rcases List.mem_singleton.mp he2 with rfl
    exact resolveRow_resolved s r r' h1
  · -- runElem, for-loop source errors
    intro s lvar ex body er h1 s' out h
    simp only [runElem, h1] at h
    exact absurd h (by simp)
  · -- runElem, for-loop over an array
    intro s lvar ex body arr h1 ih3 s' out h
    simp only [runElem, h1] at h
    exact ih3 s' out h
  · -- runElem, for-loop over a non-array
    intro s lvar ex body a hna h1 s' out h
    cases a with
    | array arr => exact absurd rfl (fun hh => hna arr hh)
    | string v =>
      simp only [runElem, h1, Except.ok.injEq, Prod.mk.injEq] at h
      obtain ⟨h2, h3⟩ := h
      subst h2; subst h3
      exact ⟨rfl, by simp⟩
    | integer v =>
      simp only [runElem, h1, Except.ok.injEq, Prod.mk.injEq] at h
      obtain ⟨h2, h3⟩ := h
      subst h2; subst h3
      exact ⟨rfl, by simp⟩
    | float v =>
      simp only [runElem, h1, Except.ok.injEq, Prod.mk.injEq] at h
      obtain ⟨h2, h3⟩ := h
      subst h2; subst h3
      exact ⟨rfl, by simp⟩
    | boolean v =>
      simp only [runElem, h1, Except.ok.injEq, Prod.mk.injEq] at h
      obtain ⟨h2, h3⟩ := h
      subst h2; subst h3
      exact ⟨rfl, by simp⟩
    | object v =>
      simp only [runElem, h1, Except.ok.injEq, Prod.mk.injEq] at h
      obtain ⟨h2, h3⟩ := h
      subst h2; subst h3
      exact ⟨rfl, by simp⟩
  · -- runElem, pass-through elements
    intro s other hnf hnr hnl s' out h
    cases other with
    | format f => exact absurd rfl (fun hh => hnf f hh)
    | row r => exact absurd rfl (fun hh => hnr r hh)
    | forLoop lvar ex body => exact absurd rfl (fun hh => hnl lvar ex body hh)
    | sheet v =>
      simp only [runElem, Except.ok.injEq, Prod.mk.injEq] at h
      obtain ⟨h2, h3⟩ := h
      subst h2; subst h3
      exact ⟨rfl, by simp [isResolved]⟩
    | anchor v =>
      simp only [runElem, Except.ok.injEq, Prod.mk.injEq] at h
      obtain ⟨h2, h3⟩ := h
      subst h2; subst h3
      exact ⟨rfl, by simp [isResolved]⟩
    | mover v =>
      simp only [runElem, Except.ok.injEq, Prod.mk.injEq] at h
      obtain ⟨h2, h3⟩ := h
      subst h2; subst h3
      exact ⟨rfl, by simp [isResolved]⟩
    | cr =>
      simp only [runElem, Except.ok.injEq, Prod.mk.injEq] at h
      obtain ⟨h2, h3⟩ := h
      subst h2; subst h3
      exact ⟨rfl, by simp [isResolved]⟩
    | autofit =>
      simp only [runElem, Except.ok.injEq, Prod.mk.injEq] at h
      obtain ⟨h2, h3⟩ := h
      subst h2; subst h3
      exact ⟨rfl, by simp [isResolved]⟩
    | column v =>
      simp only [runElem, Except.ok.injEq, Prod.mk.injEq] at h
      obtain ⟨h2, h3⟩ := h
      subst h2; subst h3
      exact ⟨rfl, by simp [isResolved]⟩
    | rowSpec v =>
      simp only [runElem, Except.ok.injEq, Prod.mk.injEq] at h
      obtain ⟨h2, h3⟩ := h
      subst h2; subst h3
      exact ⟨rfl, by simp [isResolved]⟩
  · -- loopIter, empty array
    intro s lvar body i s' out h
    simp only [loopIter, Except.ok.injEq, Prod.mk.injEq] at h
    obtain ⟨h1, h2⟩ := h
    subst h1; subst h2
    exact ⟨rfl, by simp⟩
  · -- loopIter, body errors
    intro s lvar body i v vs er h1 _ s' out h
    simp only [loopIter, h1] at h
    exact absurd h (by simp)
  · -- loopIter, body ok, rest errors
    intro s lvar body i v vs s2 outA h1 er h2 _ _ s' out h
    simp only [loopIter, h1, h2] at h
    exact absurd h (by simp)
  · -- loopIter, body and rest ok
    intro s lvar body i v vs s2 outA h1 s3 outB h2 ih1 ih3 s' out h
    simp only [loopIter, h1, h2, Except.ok.injEq, Prod.mk.injEq] at h
    obtain ⟨h3, h4⟩ := h
    subst h3; subst h4
    obtain ⟨he, hb⟩ := ih1 s2 outA h1
    subst he
    rw [exit_loopScope] at ih3 h2
    obtain ⟨ht, hc⟩ := ih3 s3 outB h2
    subst ht
    refine ⟨rfl, ?_⟩
    intro e2 he2
    rcases List.mem_append.mp he2 with hm | hm
    · exact hb e2 hm
    · exact hc e2 hm

/-- Characterization of a successful `loopIter`: the loop restores the
scope stack, the trace is the concatenation of one trace per array
element, and iteration `j` runs the body against the iteration scope for
index `i + j` and the `j`-th array element (leaving that scope intact). -/
theorem loopIter_spec (lvar : VarName) (body : List Element) :
    ∀ (arr : List Value) (i : Nat) (s s' : Scopes) (out : List Element),
      loopIter s lvar body arr i = .ok (s', out) →
      s' = s ∧
      ∃ outs : List (List Element),
        outs.length = arr.length ∧ out = outs.join ∧
        ∀ j, j < arr.length →
          runElems (loopScope s lvar (i + j) (arr.getD j (.integer 0))) body
            = .ok (loopScope s lvar (i + j) (arr.getD j (.integer 0)), outs.getD j []) := by
  intro arr
  induction arr with
  | nil =>
    intro i s s' out h
    simp only [loopIter, Except.ok.injEq, Prod.mk.injEq] at h
    obtain ⟨h1, h2⟩ := h
    subst h1; subst h2
    exact ⟨rfl, [], by simp⟩
  | cons v vs ih =>
    intro i s s' out h
    simp only [loopIter] at h
    split at h
    · exact absurd h (by simp)
    · next s2 outA hA =>
      obtain ⟨hs2, _⟩ := run_sound _ _ _ _ hA
      subst hs2
      rw [exit_loopScope] at h
      split at h
      · exact absurd h (by simp)
      · next s3 outB hB =>
        simp only [Except.ok.injEq, Prod.mk.injEq] at h
        obtain ⟨h1, h2⟩ := h
        subst h1; subst h2
        obtain ⟨hs3, outs, hlen, hout, hiter⟩ := ih (i + 1) s s3 outB hB
        subst hs3
        refine ⟨rfl, outA :: outs, by simp [hlen], by simp [hout], ?_⟩
        intro j hj
        cases j with
        | zero => simpa using hA
        | succ k =>
          have hk : k < vs.length := by
            simpa [List.length_cons, Nat.succ_lt_succ_iff] using hj
          have heq : i + (k + 1) = i + 1 + k := by omega
          simpa [heq] using hiter k hk

/-- Defining a name and looking it up in the same scope yields the defined
value. -/
theorem Scope.get_define_self (sc : Scope) (n : VarName) (v : Value) :
    (sc.define n v).get n = some v := by
  induction sc with
  | nil => simp [Scope.define, Scope.get]
  | cons kv t ih =>
    by_cases hk : kv.1 = n
    · simp [Scope.define, Scope.get, hk]
    · simp [Scope.define, Scope.get, hk, ih]

/-- Defining a name does not change the lookup of a different name. -/
theorem Scope.get_define_ne (sc : Scope) (n m : VarName) (v : Value) (h : n ≠ m) :
    (sc.define n v).get m = sc.get m := by
  induction sc with
  | nil => simp [Scope.define, Scope.get, h]
  | cons kv t ih =>
    by_cases hk : kv.1 = n
    · simp [Scope.define, Scope.get, hk, h]
    · by_cases hm : kv.1 = m
      · simp [Scope.define, Scope.get, hk, hm, if_neg (Ne.symm h)]
      · simp [Scope.define, Scope.get, hk, hm, ih]

/-- In a loop-iteration scope the stripped loop-variable name is bound to
the current array element (the later `define` wins when the stripped name
is `index` itself). -/
theorem loopScope_get_var (s : Scopes) (lvar : VarName) (i : Nat) (v : Value) :
    (loopScope s lvar i v).get (lvar.drop 1) = .ok v := by
  simp [loopScope, Scopes.enter, Scopes.defineTop, Scopes.get, scopesFind,
    Scope.get_define_self]

/-- In a loop-iteration scope `index` is bound to the 0-based iteration
index, provided the stripped loop-variable name is not itself `index`. -/
theorem loopScope_get_index (s : Scopes) (lvar : VarName) (i : Nat) (v : Value)
    (h : lvar.drop 1 ≠ "index".data) :
    (loopScope s lvar i v).get "index".data = .ok (.integer (i : Int)) := by
  have h2 : List.tail lvar ≠ (['i', 'n', 'd', 'e', 'x'] : VarName) := by
    simpa using h
  simp [loopScope, Scopes.enter, Scopes.defineTop, Scopes.get, scopesFind,
    Scope.get_define_ne _ _ _ _ h2, Scope.get_define_self]

/-- C1, counterexample: the claim states that `sub(x, a)` with numeric `x`
and Array `a` returns an invalid-operation type error, but the source
(`Value::sub`, scope.rs lines 144-147) returns `Ok` of the numeric operand
minus the array length: `sub(Integer 5, Array [1]) = Ok(Integer 4)`. -/
theorem c1_sub_array_counterexample :
    Value.sub (.integer 5) (.array [.integer 1]) = .ok (.integer 4) ∧
    (Value.sub (.integer 5) (.array [.integer 1])).isOk = true := by
  constructor
  · rfl
  · rfl

/-- C1, amended: `sub` with an Array on the LEFT always returns the
invalid-operation error, while `sub` with a numeric left operand and an
Array right operand succeeds, returning the numeric operand minus the
element count of the array (mirroring `add`, hence symmetric in definedness but
directional in meaning). -/
theorem c1_sub_array_amended :
    (∀ (a : List Value) (v : Value),
      Value.sub (.array a) v = .error ⟨"invalid operation: array - _"⟩) ∧
    (∀ (n : Int) (a : List Value),
      Value.sub (.integer n) (.array a) = .ok (.integer (n - (a.length : Int)))) ∧
    (∀ (q : Rat) (a : List Value),
      Value.sub (.float q) (.array a) = .ok (.float (q - (a.length : Rat)))) := by
  refine ⟨fun a v => ?_, fun n a => rfl, fun q a => rfl⟩
  cases v <;> rfl

/-- C5: `div` between any two numeric values (Integer or Float on either
side) returns `Ok` of a `Float` value, never an `Integer`; in particular
`div(Integer 6, Integer 3)` yields `Float 2.0`. -/
theorem c5_div_always_float :
    (∀ a b : Value, a.isNumeric = true → b.isNumeric = true →
      ∃ q : Rat, Value.div a b = .ok (.float q)) ∧
    Value.div (.integer 6) (.integer 3) = .ok (.float 2) := by
  constructor
  · intro a b ha hb
    cases a <;> simp [Value.isNumeric] at ha <;>
      cases b <;> simp [Value.isNumeric] at hb <;>
      exact ⟨_, rfl⟩
  · norm_num [Value.div]

/-- C5, witness: the general statement applied at `Integer 6 / Integer 3`. -/
theorem c5_div_always_float_witness :
    ∃ q : Rat, Value.div (.integer 6) (.integer 3) = .ok (.float q) :=
  c5_div_always_float.1 (.integer 6) (.integer 3) rfl rfl

/-- C6, counterexample: the claim states every arithmetic type error
message shows the operator actually applied and names both operand kinds;
but `Value::mul` with a `String` left operand (scope.rs lines 287-289)
produces `invalid operation: string / _`, showing `/` for a
multiplication and `_` instead of the right operand kind. -/
theorem c6_message_token_mismatch_counterexample :
    Value.mul (.string "a") (.integer 1) = .error ⟨"invalid operation: string / _"⟩ ∧
    "invalid operation: string / _" ≠ "invalid operation: string * integer" := by
  constructor
  · rfl
  · decide

/-- The operator token of a binary operator as it appears in the
well-formed error messages ("+", "-", "*", "/"). -/
theorem c6_uniform_messages_amended :
    (∀ (op : Operator) (a b : Value) (e : SpreadSheetError),
      op ≠ .neg → a.isNumeric = true → handle op a b = .error e →
      e.msg = "invalid operation: " ++ a.kindName ++
        (match op with
         | .add => " + "
         | .sub => " - "
         | .mul => " * "
         | .div => " / "
         | .neg => " ? ") ++ b.kindName) ∧
    (∀ (v : Value) (e : SpreadSheetError),
      Value.neg v = .error e → e.msg = "invalid operation: -" ++ v.kindName) := by
  constructor
  · intro op a b e hop ha h
    cases op <;> try exact absurd rfl hop
    all_goals
      cases a <;> simp only [Value.isNumeric, Bool.false_eq_true] at ha <;>
        cases b <;>
          first
          | (simp only [handle, Value.add, Value.sub, Value.mul, Value.div] at h
             exact Except.noConfusion h)
          | (simp only [handle, Value.add, Value.sub, Value.mul, Value.div,
               Except.error.injEq] at h
             subst h
             simp only [Value.kindName]
             decide)
  · intro v e h
    cases v <;>
      first
      | (simp only [Value.neg] at h
         exact Except.noConfusion h)
      | (simp only [Value.neg, Except.error.injEq] at h
         subst h
         simp only [Value.kindName]
         decide)

/-- C6, witness: the amended statement applied at `mul(Integer 0,
Boolean true)`. -/
theorem c6_uniform_messages_witness :
    (⟨"invalid operation: integer * boolean"⟩ : SpreadSheetError).msg =
      "invalid operation: " ++ (Value.integer 0).kindName ++
        (match Operator.mul with
         | .add => " + "
         | .sub => " - "
         | .mul => " * "
         | .div => " / "
         | .neg => " ? ") ++
        (Value.boolean true).kindName :=
  c6_uniform_messages_amended.1 .mul (.integer 0) (.boolean true)
    ⟨"invalid operation: integer * boolean"⟩ (by decide) rfl rfl

/-- C8: `enter()` immediately followed by `exit()` restores the scope
stack to its exact prior state, so every lookup through `get` afterwards
returns what it returned before. -/
theorem c8_enter_exit_roundtrip :
    ∀ s : Scopes, s.enter.exit = s ∧ ∀ n : VarName, s.enter.exit.get n = s.get n :=
  fun s => ⟨rfl, fun n => rfl⟩

/-- C2: whenever `VM::run` succeeds, every element handed to the
consumer operation `process` (the trace, one call per element, in document and
loop-iteration order) is fully resolved: it is never a `ForLoop`, and every
`Format` modifier expression and `Row` cell value it carries is
`Expr::Primary(Expression::Value(..))`. -/
theorem c2_consumer_sees_resolved_elements :
    ∀ (s : Scopes) (els : List Element) (s' : Scopes) (out : List Element),
      runElems s els = .ok (s', out) → ∀ e ∈ out, isResolved e = true :=
  fun s els s' out h => (run_sound s els s' out h).2

/-- C2, witness: a document with a format, a loop over an array producing a
row, and a pass-through element; the emitted trace is fully resolved. -/
theorem c2_consumer_sees_resolved_elements_witness :
    (runElems ⟨[], []⟩
        [.format ⟨"f".data, [⟨"bold".data, .primary (.value (.integer 1))⟩]⟩,
         .forLoop "$i".data (.value (.array [.integer 7]))
           [.row ⟨[⟨.str, .primary (.identifier "$i".data), none, 1, 1, none⟩]⟩],
         .cr]
      = .ok (⟨[], []⟩,
        [.format ⟨"f".data, [⟨"bold".data, .primary (.value (.integer 1))⟩]⟩,
         .row ⟨[⟨.str, .primary (.value (.integer 7)), none, 1, 1, none⟩]⟩,
         .cr])) ∧
    ∀ e ∈ [Element.format ⟨"f".data, [⟨"bold".data, .primary (.value (.integer 1))⟩]⟩,
           Element.row ⟨[⟨.str, .primary (.value (.integer 7)), none, 1, 1, none⟩]⟩,
           Element.cr], isResolved e = true := by
  have hrun : runElems ⟨[], []⟩
      [.format ⟨"f".data, [⟨"bold".data, .primary (.value (.integer 1))⟩]⟩,
       .forLoop "$i".data (.value (.array [.integer 7]))
         [.row ⟨[⟨.str, .primary (.identifier "$i".data), none, 1, 1, none⟩]⟩],
       .cr]
      = .ok (⟨[], []⟩,
        [.format ⟨"f".data, [⟨"bold".data, .primary (.value (.integer 1))⟩]⟩,
         .row ⟨[⟨.str, .primary (.value (.integer 7)), none, 1, 1, none⟩]⟩,
         .cr]) := by
    simp [runElems, runElem, loopIter, loopScope, resolveFormat, resolveModifiers,
      resolveRow, resolveCells, resolveExpr, resolveExpression, Scopes.resolve,
      Scopes.resolve_identifier, splitNext, Scopes.get, scopesFind, Scope.get,
      Scope.define, Scopes.enter, Scopes.defineTop, Scopes.exit, Value.resolve,
      handle]
  exact ⟨hrun, c2_consumer_sees_resolved_elements _ _ _ _ hrun⟩

/-- C4: a for-loop whose source expression successfully evaluates to a
non-Array value executes its body zero times and returns success, leaving
the scope stack unchanged (empty trace, same scopes). -/
theorem c4_non_array_loop_is_empty :
    ∀ (s : Scopes) (lvar : VarName) (ex : Expression) (body : List Element) (v : Value),
      resolveExpression s ex = .ok v → v.isArray = false →
      runElem s (.forLoop lvar ex body) = .ok (s, []) := by
  intro s lvar ex body v h1 h2
  cases v with
  | array arr => exact absurd h2 (by simp [Value.isArray])
  | string x => simp [runElem, h1]
  | integer x => simp [runElem, h1]
  | float x => simp [runElem, h1]
  | boolean x => simp [runElem, h1]
  | object x => simp [runElem, h1]

/-- C4, witness: a loop over the Integer literal `3` runs zero iterations
and succeeds. -/
theorem c4_non_array_loop_is_empty_witness :
    runElem ⟨[], []⟩ (.forLoop "$i".data (.value (.integer 3)) [.cr]) = .ok (⟨[], []⟩, []) :=
  c4_non_array_loop_is_empty ⟨[], []⟩ "$i".data (.value (.integer 3)) [.cr]
    (.integer 3) rfl rfl

/-- C3, counterexample: the claim states that iteration `i` of a for-loop
binds the name `index` to `Integer i` and the stripped loop-variable name
to the i-th array element.  With loop variable `$index` the two `define`
calls target the same name and the element binding overwrites the `index`
binding, so `index` is NOT bound to `Integer 0`: executing the loop over
`["x"]` with body `[row [$index]]` emits the cell value `String "x"`, not
`Integer 0`. -/
theorem c3_loop_binding_counterexample :
    runElem ⟨[], []⟩
        (.forLoop "$index".data (.value (.array [.string "x"]))
          [.row ⟨[⟨.str, .primary (.identifier "$index".data), none, 1, 1, none⟩]⟩])
      = .ok (⟨[], []⟩,
        [.row ⟨[⟨.str, .primary (.value (.string "x")), none, 1, 1, none⟩]⟩]) ∧
    Value.string "x" ≠ Value.integer 0 := by
  constructor
  · simp [runElems, runElem, loopIter, loopScope, resolveRow, resolveCells,
      resolveExpr, resolveExpression, Scopes.resolve, Scopes.resolve_identifier,
      splitNext, Scopes.get, scopesFind, Scope.get, Scope.define, Scopes.enter,
      Scopes.defineTop, Scopes.exit, Value.resolve]
  · intro h
    exact Value.noConfusion h

/-- C3, amended: for a for-loop whose source expression evaluates to an
Array of n elements, a successful execution restores the scope stack
exactly (`s' = s`), runs the body exactly n times in array order — the
trace is the concatenation of one body trace per element, and iteration i
runs the body against the freshly entered scope carrying the two `define`
calls of the source — with the i-th element bound to the stripped
loop-variable name, and `index` bound to `Integer i` PROVIDED the stripped
loop-variable name is not itself `index` (in that case the element binding
overwrites `index`, amending the original claim). -/
theorem c3_loop_iteration_amended :
    ∀ (s : Scopes) (lvar : VarName) (ex : Expression) (body : List Element)
      (arr : List Value) (s' : Scopes) (out : List Element),
      resolveExpression s ex = .ok (.array arr) →
      runElem s (.forLoop lvar ex body) = .ok (s', out) →
      s' = s ∧
      ∃ outs : List (List Element),
        outs.length = arr.length ∧ out = outs.join ∧
        ∀ j, j < arr.length →
          runElems (loopScope s lvar j (arr.getD j (.integer 0))) body
              = .ok (loopScope s lvar j (arr.getD j (.integer 0)), outs.getD j []) ∧
          (loopScope s lvar j (arr.getD j (.integer 0))).get (lvar.drop 1)
              = .ok (arr.getD j (.integer 0)) ∧
          (lvar.drop 1 ≠ "index".data →
            (loopScope s lvar j (arr.getD j (.integer 0))).get "index".data
              = .ok (.integer (j : Int))) := by
  intro s lvar ex body arr s' out h1 h2
  simp only [runElem, h1] at h2
  obtain ⟨hs, outs, hlen, hout, hiter⟩ := loopIter_spec lvar body arr 0 s s' out h2
  refine ⟨hs, outs, hlen, hout, ?_⟩
  intro j hj
  have h3 := hiter j hj
  simp only [Nat.zero_add] at h3
  exact ⟨h3, loopScope_get_var s lvar j _,
    fun hne => loopScope_get_index s lvar j _ hne⟩

/-- C3, witness: the amended statement applied to a loop over
`Array [7]` with variable `$i` and an empty body. -/
theorem c3_loop_iteration_amended_witness :
    (⟨[], []⟩ : Scopes) = ⟨[], []⟩ ∧
    ∃ outs : List (List Element),
      outs.length = ([Value.integer 7] : List Value).length ∧
      ([] : List Element) = outs.join ∧
      ∀ j, j < ([Value.integer 7] : List Value).length →
        runElems (loopScope ⟨[], []⟩ "$i".data j (([Value.integer 7]).getD j (.integer 0))) []
            = .ok (loopScope ⟨[], []⟩ "$i".data j (([Value.integer 7]).getD j (.integer 0)), outs.getD j []) ∧
        (loopScope ⟨[], []⟩ "$i".data j (([Value.integer 7]).getD j (.integer 0))).get ("$i".data.drop 1)
            = .ok (([Value.integer 7]).getD j (.integer 0)) ∧
        ("$i".data.drop 1 ≠ "index".data →
          (loopScope ⟨[], []⟩ "$i".data j (([Value.integer 7]).getD j (.integer 0))).get "index".data
            = .ok (.integer (j : Int))) :=
  c3_loop_iteration_amended ⟨[], []⟩ "$i".data (.value (.array [.integer 7])) []
    [.integer 7] ⟨[], []⟩ [] rfl
    (by simp [runElems, runElem, loopIter, loopScope, resolveExpression,
      Scopes.resolve, Scopes.enter, Scopes.defineTop, Scopes.exit, Scope.define])

/-- The recursive scan and the flag-carrying left fold written from the spec agree. -/
theorem decodeScan_foldl :
    ∀ (l : List Char) (flag : Bool) (acc : List Char),
      (l.foldl decodeSpecStep (flag, acc)).2 = acc ++ decodeScan flag l := by
  intro l
  induction l with
  | nil => intro flag acc; simp [decodeScan]
  | cons c t ih =>
    intro flag acc
    cases flag with
    | true => simp [decodeSpecStep, decodeScan, ih, List.append_assoc]
    | false =>
      by_cases hc : c = '\\'
      · simp [decodeSpecStep, decodeScan, hc, ih]
      · simp [decodeSpecStep, decodeScan, hc, ih, List.append_assoc]

/-- C7: `decode_string` strips one surrounding pair of double quotes when
present and then performs exactly the single left-to-right
backslash-flag pass (`decode_string_spec`, written from the spec text);
in particular the source token `"a\nb\"c"` decodes to
`a`, newline, `b`, quote, `c`. -/
theorem c7_decode_string :
    (∀ s : String, decode_string s = decode_string_spec s) ∧
    decode_string "\"a\\nb\\\"c\"" = "a\nb\"c" := by
  constructor
  · intro s
    simp [decode_string, decode_string_spec, decodeScan_foldl]
  · decide

/-- C9: the structural (non-expression) numeric fields never produce a
parse error: the parse functions are total, and on a failed numeric parse
`colspan` / `rowspan` stay at their default 1 while cursor-move deltas,
column/row spec indices, and sizes default to 0 (or 0.0), with parsing
continuing normally. -/
theorem c9_structural_numeric_defaults :
    (∀ s : VarName, rustParseNat (2 ^ 16 - 1) s = none →
      (parse_cell [.colspan [s]]).colspan = 1) ∧
    (∀ s : VarName, rustParseNat (2 ^ 16 - 1) s = none →
      (parse_cell [.rowspan [s]]).rowspan = 1) ∧
    (∀ s : VarName, rustParseInt (-(2 ^ 31)) (2 ^ 31 - 1) s = none →
      (parse_mover [.moverX s]).row = 0) ∧
    (∀ s : VarName, rustParseInt (-(2 ^ 15)) (2 ^ 15 - 1) s = none →
      (parse_mover [.moverY s]).col = 0) ∧
    (∀ s : VarName, rustParseNat (2 ^ 16 - 1) s = none →
      (parse_column [.number s]).start = 0) ∧
    (∀ s1 s2 : VarName, rustParseNat (2 ^ 16 - 1) s2 = none →
      (parse_column [.number s1, .number s2]).stop = 0) ∧
    (∀ s1 s2 s3 : VarName, rustParseF64 s3 = none →
      (parse_column [.number s1, .number s2, .number s3]).width = 0) ∧
    (∀ s : VarName, rustParseNat (2 ^ 32 - 1) s = none →
      (parse_rowspec [.number s]).start = 0) ∧
    (∀ s1 s2 : VarName, rustParseF64 s2 = none →
      (parse_rowspec [.number s1, .number s2]).height = 0) := by
  refine ⟨?_, ?_, ?_, ?_, ?_, ?_, ?_, ?_, ?_⟩
  · intro s h; norm_num at h; simp [parse_cell, h]
  · intro s h; norm_num at h; simp [parse_cell, h]
  · intro s h; norm_num at h; simp [parse_mover, h]
  · intro s h; norm_num at h; simp [parse_mover, h]
  · intro s h; norm_num at h; simp [parse_column, parseColumnStep, h]
  · intro s1 s2 h; norm_num at h; simp [parse_column, parseColumnStep, h]
  · intro s1 s2 s3 h; simp [parse_column, parseColumnStep, h]
  · intro s h; norm_num at h; simp [parse_rowspec, parseRowSpecStep, h]
  · intro s1 s2 h; simp [parse_rowspec, parseRowSpecStep, h]

/-- C9, witness: the malformed literal `x` fails every numeric parse and
each field gets its documented default. -/
theorem c9_structural_numeric_defaults_witness :
    (parse_cell [.colspan ["x".data]]).colspan = 1 ∧
    (parse_cell [.rowspan ["x".data]]).rowspan = 1 ∧
    (parse_mover [.moverX "x".data]).row = 0 ∧
    (parse_mover [.moverY "x".data]).col = 0 ∧
    (parse_column [.number "x".data]).start = 0 ∧
    (parse_column [.number "7".data, .number "x".data]).stop = 0 ∧
    (parse_column [.number "7".data, .number "8".data, .number "x".data]).width = 0 ∧
    (parse_rowspec [.number "x".data]).start = 0 ∧
    (parse_rowspec [.number "7".data, .number "x".data]).height = 0 :=
  ⟨c9_structural_numeric_defaults.1 "x".data (by decide),
   c9_structural_numeric_defaults.2.1 "x".data (by decide),
   c9_structural_numeric_defaults.2.2.1 "x".data (by decide),
   c9_structural_numeric_defaults.2.2.2.1 "x".data (by decide),
   c9_structural_numeric_defaults.2.2.2.2.1 "x".data (by decide),
   c9_structural_numeric_defaults.2.2.2.2.2.1 "7".data "x".data (by decide),
   c9_structural_numeric_defaults.2.2.2.2.2.2.1 "7".data "8".data "x".data (by decide),
   c9_structural_numeric_defaults.2.2.2.2.2.2.2.1 "x".data (by decide),
   c9_structural_numeric_defaults.2.2.2.2.2.2.2.2 "7".data "x".data (by decide)⟩

/-- A leading dot (empty path segment) makes the splitter yield nothing. -/
theorem splitNext_dot (rest : List Char) : splitNext ('.' :: rest) = none := by
  simp [splitNext]

/-- Splitting a dot-free non-empty segment followed by a dot yields the
segment and the text after the dot. -/
theorem splitNext_append_dot :
    ∀ (name tl : List Char), name ≠ [] → (∀ c ∈ name, c ≠ '.') →
      splitNext (name ++ '.' :: tl) = some (name, tl) := by
  intro name tl h1 h2
  have htake : ∀ nm : List Char, (∀ c ∈ nm, c ≠ '.') →
      (nm ++ '.' :: tl).takeWhile (fun c => c ≠ '.') = nm := by
    intro nm
    induction nm with
    | nil => intro _; simp
    | cons a t ih =>
      intro hh
      have ha : a ≠ '.' := hh a (List.mem_cons_self a t)
      simp only [List.cons_append, List.takeWhile_cons]
      rw [if_pos (by simpa using ha)]
      rw [ih (fun c hc => hh c (List.mem_cons_of_mem a hc))]
  simp only [splitNext, htake name h2, if_neg h1]
  rw [List.drop_left]
  simp

/-- Resolving a value against a path that starts with an empty segment
stops immediately and returns the value, ignoring all remaining text. -/
theorem resolve_stops_at_empty_segment (v : Value) (rest : List Char) :
    v.resolve ('.' :: rest) = some v := by
  rw [Value.resolve.eq_def]
  split
  · rfl
  · next seg rest2 h =>
    rw [splitNext_dot] at h
    exact Option.noConfusion h

/-- Resolving against the exhausted path returns the value. -/
theorem resolve_empty_path (v : Value) : v.resolve [] = some v := by
  rw [Value.resolve.eq_def]
  split
  · rfl
  · next seg rest2 h =>
    simp [splitNext] at h

/-- C10: an identifier whose dotted path reaches an empty segment (two
consecutive dots, or a trailing dot) stops consuming the path there:
`resolve_identifier` returns the value resolved from the segments before
the empty segment and silently ignores all remaining path text — for
example `$dict..inner` resolves to the whole value bound to `dict`. -/
theorem c10_empty_segment_stops_resolution :
    (∀ (v : Value) (rest : List Char), v.resolve ('.' :: rest) = some v) ∧
    (∀ (s : Scopes) (name : VarName) (v : Value) (rest : List Char),
      name ≠ [] → (∀ c ∈ name, c ≠ '.') → s.get name = .ok v →
      s.resolve_identifier ('$' :: (name ++ '.' :: '.' :: rest)) = some v) ∧
    (∀ (s : Scopes) (name : VarName) (v : Value),
      name ≠ [] → (∀ c ∈ name, c ≠ '.') → s.get name = .ok v →
      s.resolve_identifier ('$' :: (name ++ ['.'])) = some v) := by
  refine ⟨resolve_stops_at_empty_segment, ?_, ?_⟩
  · intro s name v rest h1 h2 h3
    simp only [Scopes.resolve_identifier, List.drop_succ_cons, List.drop_zero]
    rw [splitNext_append_dot name ('.' :: rest) h1 h2]
    simp [h3, resolve_stops_at_empty_segment]
  · intro s name v h1 h2 h3
    simp only [Scopes.resolve_identifier, List.drop_succ_cons, List.drop_zero]
    rw [splitNext_append_dot name [] h1 h2]
    simp [h3, resolve_empty_path]

/-- C10, witness: with `dict` bound to the object `{"inner": 1234}`,
`$dict..inner` resolves to the whole object. -/
theorem c10_empty_segment_stops_resolution_witness :
    (Scopes.mk [("dict".data, .object [("inner".data, .integer 1234)])] []).resolve_identifier
        ('$' :: ("dict".data ++ '.' :: '.' :: "inner".data))
      = some (.object [("inner".data, .integer 1234)]) :=
  c10_empty_segment_stops_resolution.2.1
    (Scopes.mk [("dict".data, .object [("inner".data, .integer 1234)])] [])
    "dict".data (.object [("inner".data, .integer 1234)]) "inner".data
    (by decide) (by decide) rfl
